import Mathlib

/-!
Shallow embedding of the buildpack lifecycle restorer and stack-validation
code (stack_validation.go and cmd/lifecycle/analyzer.go), together with
theorems checking the specification's claims against it.

Conventions of the embedding:
* Go strings are Lean `String`s; `os.Getenv` results are passed as parameters
  (the empty string standing for an unset variable, as Getenv returns "").
* Fallible Go calls return `Except String α`; `errors.Wrap(err, msg)` becomes
  prefixing with `msg ++ ": "`.
* External collaborators that live outside the two source files
  (name.ParseReference, StackMetadata.BestRunImageMirror, imgutil image
  handles, the file copier) are abstract function parameters.
* The on-disk layers directory is a function from buildpack ID to the list of
  that buildpack's layer directories; a layer carries its name, the cache flag
  of its on-disk descriptor, the hash the layer SHA store reports for it, and
  an abstraction of its content.
-/

deriving instance DecidableEq for Except

namespace Lifecycle

/-- API version as produced by api.MustParse: a major and a minor component. -/
structure Version where
  major : Nat
  minor : Nat
deriving DecidableEq

/-- api.Version.Compare is lexicographic on (major, minor); AtLeast v w is
Compare(v, w) >= 0. -/
def Version.atLeast (v w : Version) : Bool :=
  decide (w.major < v.major) || (v.major == w.major && decide (w.minor ≤ v.minor))

/-! ## Stack metadata and stack validation (stack_validation.go, analyzer.go) -/

/-- platform.StackMetadata.BuildImage: the build image section. -/
structure BuildImageMD where
  stackID : String
deriving DecidableEq

/-- platform.StackMetadata.RunImage: the run image section. -/
structure RunImageMD where
  image : String
  mirrors : List String
deriving DecidableEq

/-- platform.StackMetadata as decoded from stack.toml. -/
structure StackMetadata where
  buildImage : BuildImageMD
  runImage : RunImageMD
deriving DecidableEq

/-- Single quote character, used by the incompatible-stack error message. -/
def squote : String := (Char.ofNat 39).toString

/-- getBuildStack (stack_validation.go 34-44): prefer the CNB_STACK_ID
environment value, else stackMD.BuildImage.StackID; error when both are
empty. -/
def getBuildStack (envStackID : String) (stackMD : StackMetadata) : Except String String :=
  let buildStackID := envStackID
  let buildStackID := if buildStackID = "" then stackMD.buildImage.stackID else buildStackID
  if buildStackID = "" then
    Except.error "CNB_STACK_ID is required when there is no stack metadata available"
  else
    Except.ok buildStackID

/-- ValidateStack (stack_validation.go 14-32). `runImageLabel` is the result of
runImage.Label(platform.StackIDLabel) on the supplied run image handle. -/
def ValidateStack (envStackID : String) (stackMD : StackMetadata)
    (runImageLabel : Except String String) : Except String Unit :=
  match getBuildStack envStackID stackMD with
  | Except.error e => Except.error e
  | Except.ok buildStackID =>
    match runImageLabel with
    | Except.error e => Except.error ( "get run image label: " ++ e)
    | Except.ok runStackID =>
      if runStackID = "" then
        Except.error "get run image label: io.buildpacks.stack.id"
      else if buildStackID ≠ runStackID then
        Except.error ( "incompatible stack: " ++ squote ++ runStackID ++ squote
          ++ " is not compatible with " ++ squote ++ buildStackID ++ squote)
      else
        Except.ok ()

/-- Result of analyzeCmd.resolveRunImage: the reference the run image handle is
built from, plus (trace instrumentation for the specification) whether the
mirror-selection branch produced it. -/
structure ResolvedRunImage where
  usedMirrors : Bool
  ref : String
deriving DecidableEq

/-- analyzeCmd.resolveRunImage (analyzer.go 268-313). `parseRegistry` abstracts
name.ParseReference + ref.Context().RegistryStr(); `bestRunImageMirror`
abstracts stackMD.BestRunImageMirror (external collaborators). The final
construction of the local or remote image handle from the returned reference
is outside this model. -/
def resolveRunImage (runImageRefFlag imageName : String) (stackMD : StackMetadata)
    (parseRegistry : String → Except String String)
    (bestRunImageMirror : StackMetadata → String → Except String String) :
    Except String ResolvedRunImage :=
  let runImageRef := runImageRefFlag
  let runImageRef := if runImageRef = "" then stackMD.runImage.image else runImageRef
  let useRunImageMirrors := (stackMD.runImage.image != "") && (imageName != "")
  if runImageRef = "" then
    Except.error "CNB_RUN_IMAGE is required when there is no stack metadata available"
  else if useRunImageMirrors then
    match parseRegistry imageName with
    | Except.error e => Except.error ( "failed to parse registry: " ++ e)
    | Except.ok registry =>
      match bestRunImageMirror stackMD registry with
      | Except.error e => Except.error ( "run image mirror: " ++ e)
      | Except.ok ref => Except.ok ⟨true, ref⟩
  else
    Except.ok ⟨false, runImageRef⟩

/-- analyzeCmd.supportsStackValidation (analyzer.go 334-340): stack validation
exists for platform API at least 0.7. -/
def supportsStackValidation (platformAPI : Version) : Bool :=
  platformAPI.atLeast ⟨0, 7⟩

/-- analyzeCmd.resolveBuildStack (analyzer.go 252-266): the inline duplicate of
getBuildStack used by the command entry point. -/
def resolveBuildStackCmd (envStackID : String) (stackMD : StackMetadata) :
    Except String String :=
  let buildStackID := envStackID
  let buildStackID := if buildStackID = "" then stackMD.buildImage.stackID else buildStackID
  if buildStackID = "" then
    Except.error "CNB_STACK_ID is required when there is no stack metadata available"
  else
    Except.ok buildStackID

/-- analyzeCmd.validateStack (analyzer.go 218-250). `stackDecode` is the result
of decoding stack.toml, with a missing file already folded to an empty
StackMetadata (os.IsNotExist is tolerated by the code); `runImageLabel` maps
the resolved run image reference to the stack-id label of the image handle
built from it. -/
def validateStackCmd (platformAPI : Version) (stackDecode : Except String StackMetadata)
    (envStackID runImageRefFlag imageName : String)
    (parseRegistry : String → Except String String)
    (bestRunImageMirror : StackMetadata → String → Except String String)
    (runImageLabel : String → Except String String) : Except String Unit :=
  if !supportsStackValidation platformAPI then
    Except.ok ()
  else
    match stackDecode with
    | Except.error e => Except.error ( "get stack metadata: " ++ e)
    | Except.ok stackMD =>
      match resolveBuildStackCmd envStackID stackMD with
      | Except.error e => Except.error ( "resolve stack: " ++ e)
      | Except.ok buildStackID =>
        match resolveRunImage runImageRefFlag imageName stackMD parseRegistry bestRunImageMirror with
        | Except.error e => Except.error ( "resolve run image: " ++ e)
        | Except.ok resolved =>
          match runImageLabel resolved.ref with
          | Except.error e => Except.error ( "get run image label: " ++ e)
          | Except.ok runStackID =>
            if runStackID = "" then
              Except.error "get run image label: io.buildpacks.stack.id"
            else if buildStackID ≠ runStackID then
              Except.error ( "incompatible stack: " ++ squote ++ runStackID ++ squote
                ++ " is not compatible with " ++ squote ++ buildStackID ++ squote)
            else
              Except.ok ()

/-! ## Restorer data model (stack_validation.go 45-241) -/

/-- buildpack.GroupBuildpack: a group entry, with its declared buildpack API
version already parsed. -/
structure GroupBuildpack where
  id : String
  api : Version
deriving DecidableEq

/-- A cached-layer record of the cache metadata document:
{sha, cache, launch, build}. -/
structure CachedLayerRecord where
  sha : String
  cache : Bool
  launch : Bool
  build : Bool
deriving DecidableEq

/-- Association-list lookup keyed by strings (Go map indexing). -/
def assocLookup {α : Type} : List (String × α) → String → Option α
  | [], _ => none
  | (k, v) :: rest, n => if k = n then some v else assocLookup rest n

/-- The per-buildpack slice of the cache metadata: layer name to record. -/
structure BuildpackLayersMetadata where
  layers : List (String × CachedLayerRecord)
deriving DecidableEq

/-- platform.CacheMetadata: buildpack ID to its cached layers. -/
structure CacheMetadata where
  buildpacks : List (String × BuildpackLayersMetadata)
deriving DecidableEq

/-- CacheMetadata.MetadataForBuildpack: the entry for the ID, or a zero value
when absent. -/
def CacheMetadata.metadataForBuildpack (m : CacheMetadata) (id : String) :
    BuildpackLayersMetadata :=
  (assocLookup m.buildpacks id).getD ⟨[]⟩

/-- An on-disk layer directory of one buildpack. `name` is
filepath.Base(layer.Path()); `cacheFlag` is the cache flag of its on-disk
descriptor (layer.toml); `sha` is the hash the layer SHA store reports for it
(layerSHAStore.Get); `content` abstracts the directory's file contents. -/
structure BpLayer where
  name : String
  cacheFlag : Bool
  sha : String
  content : String
deriving DecidableEq

/-- Modelled from the spec: buildpack.MadeCached (the buildpack package is not
under src/) — candidacy from the on-disk descriptor's own cache flag. -/
def MadeCached (l : BpLayer) : Bool :=
  l.cacheFlag

/-- The cache-candidacy predicate Restore builds for one buildpack
(stack_validation.go 96-110): for buildpack API at least 0.6, presence of a
same-named cache-metadata entry with its cache flag set; below 0.6, the
made-cached rule on the descriptor. -/
def cachedFnFor (bpAPI : Version) (cachedLayers : List (String × CachedLayerRecord)) :
    BpLayer → Bool :=
  if bpAPI.atLeast ⟨0, 6⟩ then
    fun l =>
      match assocLookup cachedLayers l.name with
      | some bpLayer => bpLayer.cache
      | none => false
  else
    MadeCached

/-- Modelled from the spec: buildpack.ReadLayersDir + bpDir.FindLayers (the
buildpack package is not under src/) — the on-disk layers satisfying the
predicate, in directory order. -/
def findLayers (dir : List BpLayer) (fn : BpLayer → Bool) : List BpLayer :=
  dir.filter fn

/-- The decision the Restore loop body takes for one found layer
(stack_validation.go 118-145): no record means remove; a record with a
different hash means remove; otherwise restore from the record's sha. -/
inductive LayerDecision
  | remove
  | restore (sha : String)
deriving DecidableEq

/-- decideLayer: the loop body's decision for a found cache-candidate layer. -/
def decideLayer (cachedLayers : List (String × CachedLayerRecord)) (l : BpLayer) :
    LayerDecision :=
  match assocLookup cachedLayers l.name with
  | none => LayerDecision.remove
  | some cachedLayer =>
    if l.sha ≠ cachedLayer.sha then LayerDecision.remove
    else LayerDecision.restore cachedLayer.sha

/-- Whether the loop body keeps the found layer on disk. -/
def layerKept (cachedLayers : List (String × CachedLayerRecord)) (l : BpLayer) : Bool :=
  match decideLayer cachedLayers l with
  | LayerDecision.remove => false
  | LayerDecision.restore _ => true

/-- A layer survives the per-buildpack pass when it is not a cache candidate,
or when its decision is restore. The Go loop removes layers in place; on a
filesystem layer names are unique per directory, so the in-place removals
amount to this filter. -/
def keepAfter (cachedLayers : List (String × CachedLayerRecord)) (fn : BpLayer → Bool)
    (l : BpLayer) : Bool :=
  !fn l || layerKept cachedLayers l

/-- A restore task handed to the errgroup. The Go closure passes only the
record's SHA to restoreCacheLayer; the buildpack ID and layer name record
which layer enqueued it (trace instrumentation for the specification). -/
structure ScheduledTask where
  bpID : String
  layerName : String
  sha : String
deriving DecidableEq

/-- The restore tasks enqueued for the found layers of one buildpack, in loop
order. -/
def bpTasks (cachedLayers : List (String × CachedLayerRecord)) (bpID : String)
    (found : List BpLayer) : List ScheduledTask :=
  found.filterMap fun l =>
    match decideLayer cachedLayers l with
    | LayerDecision.remove => none
    | LayerDecision.restore sha => some ⟨bpID, l.name, sha⟩

/-- One iteration of the per-buildpack loop of Restore (stack_validation.go
93-146): select the predicate, scan the layers, remove stale candidates, and
enqueue restore tasks for verified ones. -/
def processBuildpack (cacheMeta : CacheMetadata) (bp : GroupBuildpack)
    (dir : List BpLayer) : List BpLayer × List ScheduledTask :=
  let cachedLayers := (cacheMeta.metadataForBuildpack bp.id).layers
  let cachedFn := cachedFnFor bp.api cachedLayers
  (dir.filter (keepAfter cachedLayers cachedFn),
   bpTasks cachedLayers bp.id (findLayers dir cachedFn))

/-- The on-disk layers directories: buildpack ID to its layer list. -/
abbrev Dirs := String → List BpLayer

/-- Point update of the layers directories at one buildpack ID. -/
def updateDirs (dirs : Dirs) (id : String) (v : List BpLayer) : Dirs :=
  fun x => if x = id then v else dirs x

/-- The sequential per-buildpack phase of Restore, threading the on-disk state
through the group in order and concatenating the enqueued tasks. -/
def processGroup (cacheMeta : CacheMetadata) :
    List GroupBuildpack → Dirs → Dirs × List ScheduledTask
  | [], dirs => (dirs, [])
  | bp :: rest, dirs =>
    let pb := processBuildpack cacheMeta bp (dirs bp.id)
    let next := processGroup cacheMeta rest (updateDirs dirs bp.id pb.1)
    (next.1, pb.2 ++ next.2)

/-- One entry of a cached layer archive: the layer path it writes
(buildpack ID and layer name) and the content it puts there. -/
structure ArchiveEntry where
  bpID : String
  layerName : String
  content : String
deriving DecidableEq

/-- A cached layer archive, as a list of entries in tar order. -/
abbrev Archive := List ArchiveEntry

/-- The Cache collaborator: its stored metadata document, plus
RetrieveLayer + layers.Extract folded into one map from hash to archive. -/
structure Cache where
  metadata : CacheMetadata
  retrieveLayer : String → Except String Archive

/-- Modelled from the spec: retrieveCacheMetadata (defined elsewhere in the
repository) — with no usable cache Restore proceeds with empty metadata. -/
def retrieveCacheMetadata (cache : Option Cache) : CacheMetadata :=
  match cache with
  | none => ⟨[]⟩
  | some c => c.metadata

/-- Restorer.restoreCacheLayer (stack_validation.go 163-176): nil-cache sanity
check, then retrieve the archive for the sha (extraction of the returned
archive is applied by the caller's task runner). -/
def restoreCacheLayer (cache : Option Cache) (sha : String) : Except String Archive :=
  match cache with
  | none => Except.error "restoring layer: cache not provided"
  | some c => c.retrieveLayer sha

/-- The last archive entry writing to the given layer path, if any: later tar
entries overwrite earlier ones. -/
def lastEntry : Archive → String → String → Option String
  | [], _, _ => none
  | e :: rest, id, name =>
    match lastEntry rest id name with
    | some c => some c
    | none => if e.bpID = id ∧ e.layerName = name then some e.content else none

/-- The effect of extracting one archive on one layer: its content is
overwritten when the archive writes its path, and nothing else changes. -/
def contentUpdate (a : Archive) (id : String) (l : BpLayer) : BpLayer :=
  match lastEntry a id l.name with
  | some c => { l with content := c }
  | none => l

/-- layers.Extract of one archive over the layers directories. -/
def extractArchive (a : Archive) (dirs : Dirs) : Dirs :=
  fun id => (dirs id).map (contentUpdate a id)

/-- The task phase (errgroup): every scheduled task runs to completion, each
successful retrieval extracts its archive, and the first error observed is
the one reported; a failure cancels nothing. -/
def runTasks (cache : Option Cache) : List ScheduledTask → Dirs → Dirs × Option String
  | [], dirs => (dirs, none)
  | t :: rest, dirs =>
    match restoreCacheLayer cache t.sha with
    | Except.error e => ((runTasks cache rest dirs).1, some e)
    | Except.ok a => runTasks cache rest (extractArchive a dirs)

/-! ## SBOM relocation (stack_validation.go 178-241) -/

/-- A staged SBOM file under one of the two staging subtrees
(layersDir/sbom/cache or layersDir/sbom/launch): its path segments below the
subtree root, and its content. -/
structure StagedFile where
  segs : List String
  content : String
deriving DecidableEq

/-- The SBOM staging area and the relocated files.  `dests` are the files
already copied to their final per-buildpack locations (path and content). -/
structure SbomState where
  stagedCache : List StagedFile
  stagedLaunch : List StagedFile
  dests : List (String × String)
deriving DecidableEq

/-- The filename group of the staging pattern: regexp sbom.+json requires the
name to start with sbom, end with json, and have at least one character in
between (length at least 9). Stated over the string's character list. -/
def sbomNamePat (f : String) : Bool :=
  (f.data.take 4 == [ 's', 'b', 'o', 'm']) &&
  (f.data.drop (f.data.length - 4) == [ 'j', 's', 'o', 'n']) &&
  decide (9 ≤ f.data.length)

/-- Modelled from the spec: launch.EscapeID (the launch package is not under
src/) — the escaped-identifier form replaces every slash with an
underscore. -/
def escapeID (id : String) : String :=
  ⟨id.data.map fun c => if c = '/' then '_' else c⟩

/-- The Restorer (stack_validation.go 66-74). The Logger, the external
LayerMetadataRestorer and the analyzed LayersMetadata are collaborators;
the platform is represented by its API version. -/
structure Restorer where
  layersDir : String
  buildpacks : List GroupBuildpack
  platformAPI : Version

/-- Restorer.restoresLayerMetadata (stack_validation.go 159-161). -/
def Restorer.restoresLayerMetadata (r : Restorer) : Bool :=
  r.platformAPI.atLeast ⟨0, 7⟩

/-- Restorer.buildpackDetected (stack_validation.go 233-241). -/
def Restorer.buildpackDetected (r : Restorer) (id : String) : Bool :=
  r.buildpacks.any fun bp => escapeID bp.id == id

/-- The destination of a relocated SBOM file:
layersDir/buildpackID/layerName.fileName. -/
def destPath (layersDir buildpackID layerName fileName : String) : String :=
  layersDir ++ "/" ++ buildpackID ++ "/" ++ layerName ++ "." ++ fileName

/-- Restorer.restoreSBOMFunc (stack_validation.go 199-231) on one visited
file: `some (dest, content)` when the path matches the three-segment staging
pattern and the buildpack is in the group (the file is then copied to dest),
`none` when the walk callback skips the file. `bomType` is the subtree tag of
the regexp; in this path-segment model the subtree is already fixed by which
staging list the file came from. -/
def restoreSBOMFunc (r : Restorer) (bomType : String) (f : StagedFile) :
    Option (String × String) :=
  match bomType, f.segs with
  | _, [buildpackID, layerName, fileName] =>
    if sbomNamePat fileName then
      if r.buildpackDetected buildpackID then
        some (destPath r.layersDir buildpackID layerName fileName, f.content)
      else none
    else none
  | _, _ => none

/-- The file copier collaborator (Copy): copying a staged file to its
destination may fail. -/
abbrev Copier := StagedFile → String → Except String Unit

/-- filepath.Walk of one staging subtree with the restoreSBOMFunc callback:
visits the files in order, copies the matched-and-detected ones, and stops at
the first copy error. A missing subtree root visits nothing (the callback
returns nil for a nil FileInfo). -/
def walkSBOM (r : Restorer) (bomType : String) (copy : Copier) :
    List StagedFile → List (String × String) → List (String × String) × Except String Unit
  | [], dests => (dests, Except.ok ())
  | f :: rest, dests =>
    match restoreSBOMFunc r bomType f with
    | none => walkSBOM r bomType copy rest dests
    | some (dest, content) =>
      match copy f dest with
      | Except.error e => (dests, Except.error e)
      | Except.ok _ => walkSBOM r bomType copy rest (dests ++ [(dest, content)])

/-- Restorer.restoreSBOM (stack_validation.go 178-197): walk the cache subtree,
then the launch subtree; the deferred os.RemoveAll empties the staging root
whether or not a walk failed, and a walk error is the returned result. -/
def Restorer.restoreSBOM (r : Restorer) (copy : Copier) (st : SbomState) :
    SbomState × Except String Unit :=
  let walkCache := walkSBOM r "cache" copy st.stagedCache st.dests
  match walkCache.2 with
  | Except.error e => (⟨[], [], walkCache.1⟩, Except.error e)
  | Except.ok _ =>
    let walkLaunch := walkSBOM r "launch" copy st.stagedLaunch walkCache.1
    (⟨[], [], walkLaunch.1⟩, walkLaunch.2)

/-! ## Restore (stack_validation.go 78-157) -/

/-- The on-disk state Restore reads and rewrites: the per-buildpack layer
directories and the SBOM staging area. -/
structure RestoreState where
  dirs : Dirs
  sbom : SbomState

/-- What a Restore call produces: the final on-disk state, the scheduled
restore tasks, whether the external LayerMetadataRestorer was invoked, the
sha-file mode handed to layer.NewSHAStore, and the returned error value. -/
structure RestoreResult where
  state : RestoreState
  tasks : List ScheduledTask
  metadataRestorerInvoked : Bool
  useShaFiles : Bool
  result : Except String Unit

/-- Restorer.Restore (stack_validation.go 78-157). `mdRestorer` is the result
of the external LayerMetadataRestorer.Restore call (its descriptor writes are
reflected in the layers' sha fields); `copy` is the file copier used by SBOM
relocation. Error paths of retrieveCacheMetadata, ReadLayersDir,
layerSHAStore.Get and bpLayer.Remove are outside this model (they abort the
call unchanged). -/
def Restorer.restore (r : Restorer) (cache : Option Cache)
    (mdRestorer : Except String Unit) (copy : Copier) (st : RestoreState) :
    RestoreResult :=
  let cacheMeta := retrieveCacheMetadata cache
  let useShaFiles := !r.restoresLayerMetadata
  let mdPhase := if r.restoresLayerMetadata then mdRestorer else Except.ok ()
  match mdPhase with
  | Except.error e => ⟨st, [], r.restoresLayerMetadata, useShaFiles, Except.error e⟩
  | Except.ok _ =>
    let pg := processGroup cacheMeta r.buildpacks st.dirs
    let rt := runTasks cache pg.2 pg.1
    match rt.2 with
    | some e =>
      ⟨⟨rt.1, st.sbom⟩, pg.2, r.restoresLayerMetadata, useShaFiles,
        Except.error ( "restoring data: " ++ e)⟩
    | none =>
      if r.platformAPI.atLeast ⟨0, 8⟩ then
        let sb := r.restoreSBOM copy st.sbom
        ⟨⟨rt.1, sb.1⟩, pg.2, r.restoresLayerMetadata, useShaFiles, sb.2⟩
      else
        ⟨⟨rt.1, st.sbom⟩, pg.2, r.restoresLayerMetadata, useShaFiles, Except.ok ()⟩

/-! ## Derived observables used by the theorems -/

/-- The build stack ID as getBuildStack resolves it: the environment override
preferred, else the stack metadata's build-image stack ID. -/
def resolvedBuildStack (envStackID : String) (stackMD : StackMetadata) : String :=
  if envStackID = "" then stackMD.buildImage.stackID else envStackID

theorem getBuildStack_eq (envStackID : String) (stackMD : StackMetadata) :
    getBuildStack envStackID stackMD =
      (if resolvedBuildStack envStackID stackMD = "" then
        Except.error "CNB_STACK_ID is required when there is no stack metadata available"
      else Except.ok (resolvedBuildStack envStackID stackMD)) := rfl

/-! ## C5: stack validation characterization -/

/-- C5: ValidateStack succeeds iff the resolved build stack ID (environment
override preferred, else the stack metadata's build-image stack ID) and the
run image's stack-ID label are both non-empty and string-equal; any pair of
distinct non-empty stack IDs produces an incompatible-stack error quoting both
values, and when both build-stack sources are empty it fails with the
required-stack-ID error. -/
theorem validateStack_characterization (envStackID : String) (stackMD : StackMetadata)
    (runImageLabel : Except String String) :
    (ValidateStack envStackID stackMD runImageLabel = Except.ok () ↔
      (resolvedBuildStack envStackID stackMD ≠ "" ∧
        ∃ s, runImageLabel = Except.ok s ∧ s ≠ "" ∧
          s = resolvedBuildStack envStackID stackMD))
    ∧ (∀ s, runImageLabel = Except.ok s → s ≠ "" →
        resolvedBuildStack envStackID stackMD ≠ "" →
        s ≠ resolvedBuildStack envStackID stackMD →
        ValidateStack envStackID stackMD runImageLabel =
          Except.error ( "incompatible stack: " ++ squote ++ s ++ squote
            ++ " is not compatible with " ++ squote
            ++ resolvedBuildStack envStackID stackMD ++ squote))
    ∧ (envStackID = "" → stackMD.buildImage.stackID = "" →
        ValidateStack envStackID stackMD runImageLabel =
          Except.error "CNB_STACK_ID is required when there is no stack metadata available") := by
  refine ⟨?_, ?_, ?_⟩
  · by_cases hb : resolvedBuildStack envStackID stackMD = ""
    · have hv : ValidateStack envStackID stackMD runImageLabel =
          Except.error "CNB_STACK_ID is required when there is no stack metadata available" := by
        simp [ValidateStack, getBuildStack_eq, hb]
      rw [hv]
      simp only [reduceCtorEq, false_iff]
      rintro ⟨hne, -⟩
      exact hne hb
    · cases hL : runImageLabel with
      | error e => simp [ValidateStack, getBuildStack_eq, hb, hL]
      | ok s =>
        by_cases hs : s = ""
        · simp [ValidateStack, getBuildStack_eq, hb, hL, hs]
        · by_cases heq : s = resolvedBuildStack envStackID stackMD
          · simp [ValidateStack, getBuildStack_eq, hb, hL, hs, heq]
          · have hv : ValidateStack envStackID stackMD (Except.ok s) =
                Except.error ( "incompatible stack: " ++ squote ++ s ++ squote
                  ++ " is not compatible with " ++ squote
                  ++ resolvedBuildStack envStackID stackMD ++ squote) := by
              simp only [ValidateStack, getBuildStack_eq, if_neg hb, if_neg hs]
              rw [if_pos (Ne.symm heq)]
            rw [hv]
            simp only [reduceCtorEq, false_iff]
            rintro ⟨-, t, ht, -, hteq⟩
            cases ht
            exact heq hteq
  · intro s hL hs hb hne
    simp only [ValidateStack, getBuildStack_eq, if_neg hb, hL, if_neg hs]
    rw [if_pos (Ne.symm hne)]
  · intro h1 h2
    have hb : resolvedBuildStack envStackID stackMD = "" := by
      simp [resolvedBuildStack, h1, h2]
    simp [ValidateStack, getBuildStack_eq, hb]

/-- C5 witness: a concrete mismatching pair yields the quoted error, and a
concrete matching pair succeeds. -/
theorem validateStack_characterization_app :
    ValidateStack "" ⟨⟨"stack.b"⟩, ⟨"run", []⟩⟩ (Except.ok "stack.r") =
      Except.error ( "incompatible stack: " ++ squote ++ "stack.r" ++ squote
        ++ " is not compatible with " ++ squote ++ "stack.b" ++ squote)
    ∧ ValidateStack "stack.x" ⟨⟨""⟩, ⟨"run", []⟩⟩ (Except.ok "stack.x") = Except.ok () := by
  constructor
  · exact (validateStack_characterization "" ⟨⟨"stack.b"⟩, ⟨"run", []⟩⟩
      (Except.ok "stack.r")).2.1 "stack.r" rfl (by decide) (by decide) (by decide)
  · exact (validateStack_characterization "stack.x" ⟨⟨""⟩, ⟨"run", []⟩⟩
      (Except.ok "stack.x")).1.mpr ⟨by decide, "stack.x", rfl, by decide, by decide⟩

/-! ## C10: no stack validation below platform 0.7 -/

/-- C10: when the platform API version is below 0.7, the analyzer's
validateStack returns success immediately, independently of the stack
metadata decode, the environment, the run image resolution inputs and the
label reader — no stack comparison of any kind happens. -/
theorem validate_stack_gate (platformAPI : Version)
    (h : platformAPI.atLeast ⟨0, 7⟩ = false) :
    ∀ (stackDecode : Except String StackMetadata) (envStackID runImageRefFlag imageName : String)
      (parseRegistry : String → Except String String)
      (bestRunImageMirror : StackMetadata → String → Except String String)
      (runImageLabel : String → Except String String),
      validateStackCmd platformAPI stackDecode envStackID runImageRefFlag imageName
        parseRegistry bestRunImageMirror runImageLabel = Except.ok () := by
  intro stackDecode envStackID runImageRefFlag imageName parseRegistry bestRunImageMirror
    runImageLabel
  simp [validateStackCmd, supportsStackValidation, h]

/-- C10 witness: platform 0.6 skips validation even on inputs that would fail
the stack comparison. -/
theorem validate_stack_gate_app :
    Version.atLeast ⟨0, 6⟩ ⟨0, 7⟩ = false
    ∧ validateStackCmd ⟨0, 6⟩ (Except.ok ⟨⟨"stack.b"⟩, ⟨"run", []⟩⟩) "" "" ""
        (fun _ => Except.error "no registry") (fun _ _ => Except.error "no mirror")
        (fun _ => Except.ok "stack.other") = Except.ok () :=
  ⟨by decide, validate_stack_gate ⟨0, 6⟩ (by decide) (Except.ok ⟨⟨"stack.b"⟩, ⟨"run", []⟩⟩)
    "" "" "" (fun _ => Except.error "no registry") (fun _ _ => Except.error "no mirror")
    (fun _ => Except.ok "stack.other")⟩

/-! ## C6: run image mirror selection condition (corrected) -/

/-- A stack metadata document with a mirror list but no primary run image. -/
def mirrorsOnlyMD : StackMetadata :=
  ⟨⟨"stack.a"⟩, ⟨"", ["registry-b/run-mirror"]⟩⟩

/-- A concrete registry parser: the part of the reference before the first
slash. -/
def parseReg0 : String → Except String String :=
  fun s => if s = "registry-b/previous" then Except.ok "registry-b" else Except.error "unparsed"

/-- A concrete mirror selector: the first mirror of the list. -/
def bestM0 : StackMetadata → String → Except String String :=
  fun md _ =>
    match md.runImage.mirrors with
    | m :: _ => Except.ok m
    | [] => Except.error "no mirror"

/-- C6 counterexample: a mirror list exists and an explicit previous-image
name is supplied, yet resolveRunImage does not perform mirror selection — it
returns the explicitly overridden reference as-is, because the code gates the
mirror branch on the stack metadata's primary run image being non-empty, not
on the mirror list. -/
theorem resolveRunImage_mirror_counterexample :
    mirrorsOnlyMD.runImage.mirrors ≠ []
    ∧ ("registry-b/previous" : String) ≠ ""
    ∧ resolveRunImage "registry-a/override" "registry-b/previous" mirrorsOnlyMD
        parseReg0 bestM0 = Except.ok ⟨false, "registry-a/override"⟩
    ∧ bestM0 mirrorsOnlyMD "registry-b" = Except.ok "registry-b/run-mirror"
    ∧ ("registry-a/override" : String) ≠ "registry-b/run-mirror" :=
  ⟨by decide, by decide, rfl, rfl, by decide⟩

/-- C6 amended: mirror selection (parsing the previous image's registry and
replacing the run image reference by the selected mirror) happens exactly when
the stack metadata's run image is non-empty and an explicit previous-image
name was supplied; in every other case the reference resolved in the
preceding step (explicit override preferred, else the stack metadata's run
image) is used as-is, and an empty resolution is an error. -/
theorem resolveRunImage_mirror_rule (runImageRefFlag imageName : String)
    (stackMD : StackMetadata) (parseRegistry : String → Except String String)
    (bestRunImageMirror : StackMetadata → String → Except String String) :
    (stackMD.runImage.image ≠ "" → imageName ≠ "" → ∀ registry ref1,
      parseRegistry imageName = Except.ok registry →
      bestRunImageMirror stackMD registry = Except.ok ref1 →
      resolveRunImage runImageRefFlag imageName stackMD parseRegistry bestRunImageMirror =
        Except.ok ⟨true, ref1⟩)
    ∧ ((stackMD.runImage.image = "" ∨ imageName = "") →
      (if runImageRefFlag = "" then stackMD.runImage.image else runImageRefFlag) ≠ "" →
      resolveRunImage runImageRefFlag imageName stackMD parseRegistry bestRunImageMirror =
        Except.ok ⟨false, if runImageRefFlag = "" then stackMD.runImage.image else runImageRefFlag⟩)
    ∧ ((if runImageRefFlag = "" then stackMD.runImage.image else runImageRefFlag) = "" →
      resolveRunImage runImageRefFlag imageName stackMD parseRegistry bestRunImageMirror =
        Except.error "CNB_RUN_IMAGE is required when there is no stack metadata available") := by
  refine ⟨?_, ?_, ?_⟩
  · intro himg hprev registry ref1 hreg hbest
    have href : (if runImageRefFlag = "" then stackMD.runImage.image else runImageRefFlag) ≠ "" := by
      by_cases hf : runImageRefFlag = "" <;> simp [hf, himg]
    have hmir : ((stackMD.runImage.image != "") && (imageName != "")) = true := by
      simp [himg, hprev]
    simp only [resolveRunImage]
    rw [if_neg href]
    simp [hmir, hreg, hbest]
  · intro hcond href
    have hmir : ((stackMD.runImage.image != "") && (imageName != "")) = false := by
      rcases hcond with h | h <;> simp [h]
    simp only [resolveRunImage]
    rw [if_neg href]
    simp [hmir]
  · intro href
    simp [resolveRunImage, href]

/-- C6 amended witness: with a non-empty primary run image and a previous
image supplied, the selected mirror replaces the reference; with an empty
previous image the reference is used as-is. -/
theorem resolveRunImage_mirror_rule_app :
    resolveRunImage "" "registry-b/previous" ⟨⟨"s"⟩, ⟨"primary", ["m1"]⟩⟩ parseReg0 bestM0 =
      Except.ok ⟨true, "m1"⟩
    ∧ resolveRunImage "" "" ⟨⟨"s"⟩, ⟨"primary", ["m1"]⟩⟩ parseReg0 bestM0 =
      Except.ok ⟨false, "primary"⟩ := by
  constructor
  · exact (resolveRunImage_mirror_rule "" "registry-b/previous" ⟨⟨"s"⟩, ⟨"primary", ["m1"]⟩⟩
      parseReg0 bestM0).1 (by decide) (by decide) "registry-b" "m1" rfl rfl
  · exact (resolveRunImage_mirror_rule "" "" ⟨⟨"s"⟩, ⟨"primary", ["m1"]⟩⟩
      parseReg0 bestM0).2.1 (Or.inr rfl) (by decide)

/-! ## C2: selection of the cache-candidacy predicate -/

/-- C2: the candidacy predicate is selected solely from the buildpack's
declared API version (the definition takes no platform-protocol input at
all): at API 0.6 and above a layer is a candidate exactly when a same-named
cache-metadata entry exists with its cache flag set, and the on-disk
descriptor's own cache flag is ignored; below 0.6 candidacy is the on-disk
descriptor's cache flag (the made-cached rule). -/
theorem cache_candidacy_predicate (bpAPI : Version)
    (cl : List (String × CachedLayerRecord)) (l : BpLayer) :
    (bpAPI.atLeast ⟨0, 6⟩ = true →
      ((cachedFnFor bpAPI cl l = true ↔
          ∃ rec, assocLookup cl l.name = some rec ∧ rec.cache = true)
        ∧ ∀ b : Bool,
          cachedFnFor bpAPI cl { l with cacheFlag := b } = cachedFnFor bpAPI cl l))
    ∧ (bpAPI.atLeast ⟨0, 6⟩ = false →
      cachedFnFor bpAPI cl l = l.cacheFlag) := by
  constructor
  · intro h
    constructor
    · simp only [cachedFnFor, h, if_true]
      cases hx : assocLookup cl l.name with
      | none => simp [hx]
      | some rec => simp [hx]
    · intro b
      simp [cachedFnFor, h]
  · intro h
    simp [cachedFnFor, h, MadeCached]

/-- C2 witness: at buildpack API 0.6 a metadata entry with the cache flag
decides candidacy even though the descriptor flag is false, and at 0.5 the
descriptor flag alone decides. -/
theorem cache_candidacy_predicate_app :
    (cachedFnFor ⟨0, 6⟩ [("L1", ⟨"h1", true, false, false⟩)] ⟨"L1", false, "h1", "c"⟩ = true ↔
      ∃ rec, assocLookup ([("L1", ⟨"h1", true, false, false⟩)] : List (String × CachedLayerRecord))
          (BpLayer.name ⟨"L1", false, "h1", "c"⟩) = some rec ∧ rec.cache = true)
    ∧ cachedFnFor ⟨0, 5⟩ [("L1", ⟨"h1", true, false, false⟩)] ⟨"L1", false, "h1", "c"⟩ =
      BpLayer.cacheFlag ⟨"L1", false, "h1", "c"⟩ :=
  ⟨((cache_candidacy_predicate ⟨0, 6⟩ [("L1", ⟨"h1", true, false, false⟩)]
      ⟨"L1", false, "h1", "c"⟩).1 (by decide)).1,
   (cache_candidacy_predicate ⟨0, 5⟩ [("L1", ⟨"h1", true, false, false⟩)]
      ⟨"L1", false, "h1", "c"⟩).2 (by decide)⟩

/-! ## C4: the restoresLayerMetadata flag and the two hash-store schemes -/

/-- C4: restoresLayerMetadata is exactly platform API at least 0.7; Restore
hands layer.NewSHAStore the complement of that flag (sidecar sha-files
exactly when the flag is false, the embedded scheme exactly when it is true)
and invokes the external Metadata Restorer exactly when the flag is true —
the schemes are mutually exclusive and selected once per call; when the flag
is true a Metadata Restorer error aborts Restore before any layer
processing, and when it is false the outcome is independent of the Metadata
Restorer. -/
theorem restore_metadata_gating (r : Restorer) (cache : Option Cache)
    (mdRestorer : Except String Unit) (copy : Copier) (st : RestoreState) :
    (r.restoresLayerMetadata = r.platformAPI.atLeast ⟨0, 7⟩)
    ∧ (r.restore cache mdRestorer copy st).useShaFiles = !r.restoresLayerMetadata
    ∧ (r.restore cache mdRestorer copy st).metadataRestorerInvoked = r.restoresLayerMetadata
    ∧ (r.restoresLayerMetadata = true → ∀ e, mdRestorer = Except.error e →
        (r.restore cache mdRestorer copy st).result = Except.error e
        ∧ (r.restore cache mdRestorer copy st).state = st
        ∧ (r.restore cache mdRestorer copy st).tasks = [])
    ∧ (r.restoresLayerMetadata = false → ∀ mdR2 : Except String Unit,
        r.restore cache mdR2 copy st = r.restore cache mdRestorer copy st) := by
  refine ⟨rfl, ?_, ?_, ?_, ?_⟩
  · simp only [Restorer.restore]
    split
    · rfl
    · split
      · rfl
      · split
        · rfl
        · rfl
  · simp only [Restorer.restore]
    split
    · rfl
    · split
      · rfl
      · split
        · rfl
        · rfl
  · intro h e he
    simp [Restorer.restore, h, he]
  · intro h mdR2
    simp [Restorer.restore, h]

/-- C4 witness: on platform 0.7 a failing metadata restorer aborts Restore
with its error, and on platform 0.6 the sidecar sha-file scheme is
selected. -/
theorem restore_metadata_gating_app :
    (Restorer.restore ⟨"/layers", [], ⟨0, 7⟩⟩ none (Except.error "md fail")
        (fun _ _ => Except.ok ()) ⟨fun _ => [], ⟨[], [], []⟩⟩).result =
      Except.error "md fail"
    ∧ (Restorer.restore ⟨"/layers", [], ⟨0, 6⟩⟩ none (Except.error "md fail")
        (fun _ _ => Except.ok ()) ⟨fun _ => [], ⟨[], [], []⟩⟩).useShaFiles = true :=
  ⟨((restore_metadata_gating ⟨"/layers", [], ⟨0, 7⟩⟩ none (Except.error "md fail")
      (fun _ _ => Except.ok ()) ⟨fun _ => [], ⟨[], [], []⟩⟩).2.2.2.1 rfl "md fail" rfl).1,
   ((restore_metadata_gating ⟨"/layers", [], ⟨0, 6⟩⟩ none (Except.error "md fail")
      (fun _ _ => Except.ok ()) ⟨fun _ => [], ⟨[], [], []⟩⟩).2.1).trans (by decide)⟩

/-! ## C7 and C8: SBOM relocation -/

/-- The copies one subtree walk performs when no copy fails, in visit order. -/
def copiesOf (r : Restorer) (bomType : String) (files : List StagedFile) :
    List (String × String) :=
  files.filterMap (restoreSBOMFunc r bomType)

theorem walkSBOM_ok (r : Restorer) (bomType : String) (copy : Copier)
    (hcopy : ∀ f d, copy f d = Except.ok ()) (files : List StagedFile) :
    ∀ dests, walkSBOM r bomType copy files dests =
      (dests ++ copiesOf r bomType files, Except.ok ()) := by
  induction files with
  | nil => intro dests; simp [walkSBOM, copiesOf]
  | cons f rest ih =>
    intro dests
    cases hx : restoreSBOMFunc r bomType f with
    | none => simp [walkSBOM, hx, ih, copiesOf]
    | some dc =>
      obtain ⟨dest, content⟩ := dc
      simp [walkSBOM, hx, hcopy, ih, copiesOf]

/-- C7: the SBOM staging root is removed unconditionally — after restoreSBOM
both staging lists are empty whether the walks succeeded or failed; a cache
subtree walk error is propagated as the result, and on cache success the
launch walk's result is propagated; inside Restore the relocator runs only on
platform 0.8 and above (below it the SBOM state is untouched), and on 0.8+
with a clean task phase both the relocated state and the relocator's result
become Restore's. -/
theorem restore_sbom_cleanup (r : Restorer) (copy : Copier) (st : SbomState)
    (cache : Option Cache) (mdRestorer : Except String Unit) (rst : RestoreState) :
    ((r.restoreSBOM copy st).1.stagedCache = [] ∧ (r.restoreSBOM copy st).1.stagedLaunch = [])
    ∧ (∀ e, (walkSBOM r "cache" copy st.stagedCache st.dests).2 = Except.error e →
        (r.restoreSBOM copy st).2 = Except.error e)
    ∧ ((walkSBOM r "cache" copy st.stagedCache st.dests).2 = Except.ok () →
        (r.restoreSBOM copy st).2 =
          (walkSBOM r "launch" copy st.stagedLaunch
            (walkSBOM r "cache" copy st.stagedCache st.dests).1).2)
    ∧ (r.platformAPI.atLeast ⟨0, 8⟩ = false → mdRestorer = Except.ok () →
        (r.restore cache mdRestorer copy rst).state.sbom = rst.sbom)
    ∧ (r.platformAPI.atLeast ⟨0, 8⟩ = true → mdRestorer = Except.ok () →
        (runTasks cache (processGroup (retrieveCacheMetadata cache) r.buildpacks rst.dirs).2
          (processGroup (retrieveCacheMetadata cache) r.buildpacks rst.dirs).1).2 = none →
        (r.restore cache mdRestorer copy rst).state.sbom = (r.restoreSBOM copy rst.sbom).1
        ∧ (r.restore cache mdRestorer copy rst).result = (r.restoreSBOM copy rst.sbom).2) := by
  refine ⟨⟨?_, ?_⟩, ?_, ?_, ?_, ?_⟩
  · simp only [Restorer.restoreSBOM]
    split <;> rfl
  · simp only [Restorer.restoreSBOM]
    split <;> rfl
  · intro e he
    simp only [Restorer.restoreSBOM, he]
  · intro hok
    simp only [Restorer.restoreSBOM, hok]
  · intro h hm
    simp only [Restorer.restore, hm, ite_self]
    split
    · rfl
    · simp [h]
  · intro h hm htask
    simp only [Restorer.restore, hm, ite_self, htask, h]
    exact ⟨rfl, rfl⟩

/-- C7 witness: with a copier that always fails and one matching staged file,
restoreSBOM reports the copy error yet the staging lists are emptied; and on
platform 0.7 Restore leaves a staged file in place. -/
theorem restore_sbom_cleanup_app :
    (Restorer.restoreSBOM ⟨"/layers", [⟨"bp1", ⟨0, 6⟩⟩], ⟨0, 8⟩⟩
        (fun _ _ => Except.error "boom")
        ⟨[⟨["bp1", "L1", "sbom.x.json"], "d"⟩], [], []⟩).1.stagedCache = []
    ∧ (Restorer.restoreSBOM ⟨"/layers", [⟨"bp1", ⟨0, 6⟩⟩], ⟨0, 8⟩⟩
        (fun _ _ => Except.error "boom")
        ⟨[⟨["bp1", "L1", "sbom.x.json"], "d"⟩], [], []⟩).2 = Except.error "boom"
    ∧ (Restorer.restore ⟨"/layers", [], ⟨0, 7⟩⟩ none (Except.ok ())
        (fun _ _ => Except.error "boom")
        ⟨fun _ => [], ⟨[⟨["bp1", "L1", "sbom.x.json"], "d"⟩], [], []⟩⟩).state.sbom =
      ⟨[⟨["bp1", "L1", "sbom.x.json"], "d"⟩], [], []⟩ :=
  ⟨(restore_sbom_cleanup ⟨"/layers", [⟨"bp1", ⟨0, 6⟩⟩], ⟨0, 8⟩⟩
      (fun _ _ => Except.error "boom") ⟨[⟨["bp1", "L1", "sbom.x.json"], "d"⟩], [], []⟩
      none (Except.ok ()) ⟨fun _ => [], ⟨[], [], []⟩⟩).1.1,
   (restore_sbom_cleanup ⟨"/layers", [⟨"bp1", ⟨0, 6⟩⟩], ⟨0, 8⟩⟩
      (fun _ _ => Except.error "boom") ⟨[⟨["bp1", "L1", "sbom.x.json"], "d"⟩], [], []⟩
      none (Except.ok ()) ⟨fun _ => [], ⟨[], [], []⟩⟩).2.1 "boom" (by decide),
   (restore_sbom_cleanup ⟨"/layers", [], ⟨0, 7⟩⟩ (fun _ _ => Except.error "boom")
      ⟨[], [], []⟩ none (Except.ok ())
      ⟨fun _ => [], ⟨[⟨["bp1", "L1", "sbom.x.json"], "d"⟩], [], []⟩⟩).2.2.2.1
      (by decide) rfl⟩

/-- C8: when every copy succeeds, restoreSBOM appends to the relocated files
exactly the per-file images of the walk callback over the cache then the
launch staging lists; a staged file matching the three-segment pattern is
copied to layersDir/buildpackID/layerName.fileName exactly when its buildpack
ID matches the group under the escaped-identifier comparison, is skipped
otherwise, and the staging lists are empty afterwards in every case. -/
theorem restore_sbom_relocation (r : Restorer) (copy : Copier) (st : SbomState)
    (hcopy : ∀ f d, copy f d = Except.ok ()) :
    ((r.restoreSBOM copy st).1.dests =
        st.dests ++ copiesOf r "cache" st.stagedCache ++ copiesOf r "launch" st.stagedLaunch)
    ∧ (∀ (bomType buildpackID layerName fileName content : String),
        sbomNamePat fileName = true →
        (r.buildpackDetected buildpackID = true →
          restoreSBOMFunc r bomType ⟨[buildpackID, layerName, fileName], content⟩ =
            some (destPath r.layersDir buildpackID layerName fileName, content))
        ∧ (r.buildpackDetected buildpackID = false →
          restoreSBOMFunc r bomType ⟨[buildpackID, layerName, fileName], content⟩ = none))
    ∧ (r.restoreSBOM copy st).1.stagedCache = [] ∧ (r.restoreSBOM copy st).1.stagedLaunch = []
    ∧ (r.restoreSBOM copy st).2 = Except.ok () := by
  have hc := walkSBOM_ok r "cache" copy hcopy st.stagedCache st.dests
  have hl := walkSBOM_ok r "launch" copy hcopy st.stagedLaunch
    (st.dests ++ copiesOf r "cache" st.stagedCache)
  refine ⟨?_, ?_, ?_, ?_, ?_⟩
  · simp only [Restorer.restoreSBOM, hc, hl, List.append_assoc]
  · intro bomType buildpackID layerName fileName content hpat
    constructor
    · intro hdet
      simp [restoreSBOMFunc, hpat, hdet]
    · intro hdet
      simp [restoreSBOMFunc, hpat, hdet]
  · simp only [Restorer.restoreSBOM, hc, hl]
  · simp only [Restorer.restoreSBOM, hc, hl]
  · simp only [Restorer.restoreSBOM, hc, hl]

/-- C8 witness: the spec's example — a staged launch file for bp1 (in the
group) lands at /layers/bp1/layerX.sbom.cdx.json, the same file for bp2 (not
in the group) is discarded, and the staging area is empty afterwards. -/
theorem restore_sbom_relocation_app :
    (Restorer.restoreSBOM ⟨"/layers", [⟨"bp1", ⟨0, 6⟩⟩], ⟨0, 8⟩⟩
        (fun _ _ => Except.ok ())
        ⟨[], [⟨["bp1", "layerX", "sbom.cdx.json"], "bom-a"⟩,
              ⟨["bp2", "layerX", "sbom.cdx.json"], "bom-b"⟩], []⟩).1 =
      ⟨[], [], [("/layers/bp1/layerX.sbom.cdx.json", "bom-a")]⟩
    ∧ (Restorer.restoreSBOM ⟨"/layers", [⟨"bp1", ⟨0, 6⟩⟩], ⟨0, 8⟩⟩
        (fun _ _ => Except.ok ())
        ⟨[], [⟨["bp1", "layerX", "sbom.cdx.json"], "bom-a"⟩,
              ⟨["bp2", "layerX", "sbom.cdx.json"], "bom-b"⟩], []⟩).2 = Except.ok () := by
  have h := restore_sbom_relocation ⟨"/layers", [⟨"bp1", ⟨0, 6⟩⟩], ⟨0, 8⟩⟩
    (fun _ _ => Except.ok ())
    ⟨[], [⟨["bp1", "layerX", "sbom.cdx.json"], "bom-a"⟩,
          ⟨["bp2", "layerX", "sbom.cdx.json"], "bom-b"⟩], []⟩
    (fun _ _ => rfl)
  refine ⟨?_, h.2.2.2.2⟩
  have hd := h.1
  have hsc := h.2.2.1
  have hsl := h.2.2.2.1
  have : (Restorer.restoreSBOM ⟨"/layers", [⟨"bp1", ⟨0, 6⟩⟩], ⟨0, 8⟩⟩
      (fun _ _ => Except.ok ())
      ⟨[], [⟨["bp1", "layerX", "sbom.cdx.json"], "bom-a"⟩,
            ⟨["bp2", "layerX", "sbom.cdx.json"], "bom-b"⟩], []⟩).1.dests =
      [("/layers/bp1/layerX.sbom.cdx.json", "bom-a")] := by
    rw [hd]; decide
  calc (Restorer.restoreSBOM ⟨"/layers", [⟨"bp1", ⟨0, 6⟩⟩], ⟨0, 8⟩⟩
      (fun _ _ => Except.ok ())
      ⟨[], [⟨["bp1", "layerX", "sbom.cdx.json"], "bom-a"⟩,
            ⟨["bp2", "layerX", "sbom.cdx.json"], "bom-b"⟩], []⟩).1 =
      ⟨(Restorer.restoreSBOM ⟨"/layers", [⟨"bp1", ⟨0, 6⟩⟩], ⟨0, 8⟩⟩
        (fun _ _ => Except.ok ())
        ⟨[], [⟨["bp1", "layerX", "sbom.cdx.json"], "bom-a"⟩,
              ⟨["bp2", "layerX", "sbom.cdx.json"], "bom-b"⟩], []⟩).1.stagedCache,
       (Restorer.restoreSBOM ⟨"/layers", [⟨"bp1", ⟨0, 6⟩⟩], ⟨0, 8⟩⟩
        (fun _ _ => Except.ok ())
        ⟨[], [⟨["bp1", "layerX", "sbom.cdx.json"], "bom-a"⟩,
              ⟨["bp2", "layerX", "sbom.cdx.json"], "bom-b"⟩], []⟩).1.stagedLaunch,
       (Restorer.restoreSBOM ⟨"/layers", [⟨"bp1", ⟨0, 6⟩⟩], ⟨0, 8⟩⟩
        (fun _ _ => Except.ok ())
        ⟨[], [⟨["bp1", "layerX", "sbom.cdx.json"], "bom-a"⟩,
              ⟨["bp2", "layerX", "sbom.cdx.json"], "bom-b"⟩], []⟩).1.dests⟩ := rfl
    _ = ⟨[], [], [("/layers/bp1/layerX.sbom.cdx.json", "bom-a")]⟩ := by
      rw [hsc, hsl, this]

/-! ## Task-phase lemmas (errgroup semantics) -/

/-- The archives of the tasks whose retrieval succeeds, in schedule order. -/
def taskArchives (cache : Option Cache) : List ScheduledTask → List Archive
  | [] => []
  | t :: rest =>
    match restoreCacheLayer cache t.sha with
    | Except.error _ => taskArchives cache rest
    | Except.ok a => a :: taskArchives cache rest

/-- The first task failure in schedule order, if any. -/
def firstTaskError (cache : Option Cache) : List ScheduledTask → Option String
  | [] => none
  | t :: rest =>
    match restoreCacheLayer cache t.sha with
    | Except.error e => some e
    | Except.ok _ => firstTaskError cache rest

/-- Concatenation of a list of archives, in order. -/
def concatArchives : List Archive → Archive
  | [] => []
  | a :: rest => a ++ concatArchives rest

/-- The combined on-disk effect of the whole task phase: every successful
task's archive applied, later entries overwriting earlier ones. -/
def applyAllTasks (cache : Option Cache) (ts : List ScheduledTask) (dirs : Dirs) : Dirs :=
  fun id => (dirs id).map (contentUpdate (concatArchives (taskArchives cache ts)) id)

theorem contentUpdate_nil (id : String) (l : BpLayer) : contentUpdate [] id l = l := rfl

theorem map_contentUpdate_nil (id : String) :
    ∀ l : List BpLayer, l.map (contentUpdate [] id) = l := by
  intro l
  induction l with
  | nil => rfl
  | cons x xs ih => simp [contentUpdate_nil, ih]

theorem lastEntry_append (b : Archive) (id name : String) :
    ∀ a : Archive, lastEntry (a ++ b) id name =
      match lastEntry b id name with
      | some c => some c
      | none => lastEntry a id name := by
  intro a
  induction a with
  | nil =>
    cases hx : lastEntry b id name <;> simp [lastEntry, hx]
  | cons e rest ih =>
    show lastEntry (e :: (rest ++ b)) id name = _
    cases hx : lastEntry b id name <;>
      simp only [lastEntry, ih, hx]

theorem contentUpdate_shape (a : Archive) (id : String) (l : BpLayer) :
    (contentUpdate a id l).name = l.name ∧ (contentUpdate a id l).cacheFlag = l.cacheFlag
    ∧ (contentUpdate a id l).sha = l.sha := by
  unfold contentUpdate
  cases lastEntry a id l.name <;> simp

theorem contentUpdate_append (a b : Archive) (id : String) (l : BpLayer) :
    contentUpdate (a ++ b) id l = contentUpdate b id (contentUpdate a id l) := by
  unfold contentUpdate
  rw [lastEntry_append]
  cases hb : lastEntry b id l.name with
  | some c =>
    cases ha : lastEntry a id l.name <;> simp [ha, hb]
  | none =>
    cases ha : lastEntry a id l.name <;> simp [ha, hb]

theorem contentUpdate_idem (a : Archive) (id : String) (l : BpLayer) :
    contentUpdate a id (contentUpdate a id l) = contentUpdate a id l := by
  unfold contentUpdate
  cases hx : lastEntry a id l.name <;> simp [hx]

theorem runTasks_dirs (cache : Option Cache) :
    ∀ (ts : List ScheduledTask) (dirs : Dirs),
      (runTasks cache ts dirs).1 = applyAllTasks cache ts dirs := by
  intro ts
  induction ts with
  | nil =>
    intro dirs
    funext id
    simp only [runTasks, applyAllTasks, taskArchives, concatArchives, map_contentUpdate_nil]
  | cons t rest ih =>
    intro dirs
    cases hx : restoreCacheLayer cache t.sha with
    | error e =>
      funext id
      simp only [runTasks, hx, ih, applyAllTasks, taskArchives]
    | ok a =>
      funext id
      simp only [runTasks, hx, ih, applyAllTasks, taskArchives, concatArchives,
        extractArchive, List.map_map]
      apply List.map_congr_left
      intro l _
      exact (contentUpdate_append a (concatArchives (taskArchives cache rest)) id l).symm

theorem runTasks_err (cache : Option Cache) :
    ∀ (ts : List ScheduledTask) (dirs : Dirs),
      (runTasks cache ts dirs).2 = firstTaskError cache ts := by
  intro ts
  induction ts with
  | nil => intro dirs; rfl
  | cons t rest ih =>
    intro dirs
    cases hx : restoreCacheLayer cache t.sha with
    | error e => simp [runTasks, firstTaskError, hx]
    | ok a => simp [runTasks, firstTaskError, hx, ih]

/-- With a successful metadata phase, the scheduled tasks of a Restore call
are the sequential phase's tasks. -/
theorem restore_tasks_eq (r : Restorer) (cache : Option Cache)
    (mdRestorer : Except String Unit) (copy : Copier) (st : RestoreState)
    (hmd : (if r.restoresLayerMetadata then mdRestorer else Except.ok ()) = Except.ok ()) :
    (r.restore cache mdRestorer copy st).tasks =
      (processGroup (retrieveCacheMetadata cache) r.buildpacks st.dirs).2 := by
  simp only [Restorer.restore, hmd]
  split
  · rfl
  · split
    · rfl
    · rfl

/-- With a successful metadata phase, the final layer directories of a
Restore call are the task phase's combined effect over the sequential
phase's output, whatever the error outcome. -/
theorem restore_dirs_eq (r : Restorer) (cache : Option Cache)
    (mdRestorer : Except String Unit) (copy : Copier) (st : RestoreState)
    (hmd : (if r.restoresLayerMetadata then mdRestorer else Except.ok ()) = Except.ok ()) :
    (r.restore cache mdRestorer copy st).state.dirs =
      applyAllTasks cache
        (processGroup (retrieveCacheMetadata cache) r.buildpacks st.dirs).2
        (processGroup (retrieveCacheMetadata cache) r.buildpacks st.dirs).1 := by
  simp only [Restorer.restore, hmd]
  split
  · exact runTasks_dirs cache _ _
  · split
    · exact runTasks_dirs cache _ _
    · exact runTasks_dirs cache _ _

/-! ## C3: error aggregation of the concurrent task phase -/

/-- C3: Restore waits for the whole task phase — the final layer directories
carry the extraction effect of every successful scheduled task, in schedule
order, whether or not some other task failed (nothing is cancelled); and if
at least one task failed, Restore returns exactly one error, the first
failure in schedule order, wrapped as a restoring-data failure, and the SBOM
step does not run. -/
theorem restore_error_aggregation (r : Restorer) (cache : Option Cache)
    (mdRestorer : Except String Unit) (copy : Copier) (st : RestoreState)
    (hmd : mdRestorer = Except.ok ()) :
    ((r.restore cache mdRestorer copy st).state.dirs =
      applyAllTasks cache
        (processGroup (retrieveCacheMetadata cache) r.buildpacks st.dirs).2
        (processGroup (retrieveCacheMetadata cache) r.buildpacks st.dirs).1)
    ∧ (∀ e, firstTaskError cache
          (processGroup (retrieveCacheMetadata cache) r.buildpacks st.dirs).2 = some e →
        (r.restore cache mdRestorer copy st).result =
          Except.error ( "restoring data: " ++ e)
        ∧ (r.restore cache mdRestorer copy st).state.sbom = st.sbom) := by
  constructor
  · exact restore_dirs_eq r cache mdRestorer copy st (by rw [hmd]; exact ite_self _)
  · intro e hfe
    have he : (runTasks cache
        (processGroup (retrieveCacheMetadata cache) r.buildpacks st.dirs).2
        (processGroup (retrieveCacheMetadata cache) r.buildpacks st.dirs).1).2 = some e := by
      rw [runTasks_err]; exact hfe
    simp only [Restorer.restore, hmd, ite_self, he]
    exact ⟨trivial, trivial⟩

/-- A cache used by the C3 witness: retrieval of hb fails, retrieval of hg
succeeds with an archive refreshing layer L2 of bp1. -/
def witnessCache : Cache :=
  ⟨⟨[("bp1", ⟨[("L1", ⟨"hb", true, false, false⟩), ("L2", ⟨"hg", true, false, false⟩)]⟩)]⟩,
   fun sha => if sha = "hb" then Except.error "net down"
     else if sha = "hg" then Except.ok [⟨"bp1", "L2", "fresh"⟩]
     else Except.error "unknown"⟩

/-- The on-disk state used by the C3 witness. -/
def witnessDirs : Dirs :=
  fun id => if id = "bp1" then
    [⟨"L1", false, "hb", "old1"⟩, ⟨"L2", false, "hg", "old2"⟩] else []

/-- C3 witness: with the first task failing and the second succeeding,
Restore reports the first error wrapped as a restoring-data failure, yet the
second task's extraction still lands on disk. -/
theorem restore_error_aggregation_app :
    (Restorer.restore ⟨"/layers", [⟨"bp1", ⟨0, 6⟩⟩], ⟨0, 6⟩⟩ (some witnessCache)
        (Except.ok ()) (fun _ _ => Except.ok ()) ⟨witnessDirs, ⟨[], [], []⟩⟩).result =
      Except.error ( "restoring data: " ++ "net down")
    ∧ (Restorer.restore ⟨"/layers", [⟨"bp1", ⟨0, 6⟩⟩], ⟨0, 6⟩⟩ (some witnessCache)
        (Except.ok ()) (fun _ _ => Except.ok ()) ⟨witnessDirs, ⟨[], [], []⟩⟩).state.dirs "bp1" =
      [⟨"L1", false, "hb", "old1"⟩, ⟨"L2", false, "hg", "fresh"⟩] := by
  have h := restore_error_aggregation ⟨"/layers", [⟨"bp1", ⟨0, 6⟩⟩], ⟨0, 6⟩⟩
    (some witnessCache) (Except.ok ()) (fun _ _ => Except.ok ()) ⟨witnessDirs, ⟨[], [], []⟩⟩ rfl
  refine ⟨(h.2 "net down" (by decide)).1, ?_⟩
  have hd := congrFun h.1 "bp1"
  rw [hd]
  decide

/-! ## Group-phase lemmas -/

/-- The keep predicate the per-buildpack pass applies to one buildpack's
directory. -/
def keepFor (cm : CacheMetadata) (bp : GroupBuildpack) (l : BpLayer) : Bool :=
  keepAfter (cm.metadataForBuildpack bp.id).layers
    (cachedFnFor bp.api (cm.metadataForBuildpack bp.id).layers) l

/-- Whether a layer of the directory keyed by `id` survives the whole
sequential phase: it must be kept by every group entry with that ID. -/
def groupKeep (cm : CacheMetadata) (bps : List GroupBuildpack) (id : String)
    (l : BpLayer) : Bool :=
  bps.all fun bp => !(bp.id == id) || keepFor cm bp l

/-- The tasks one buildpack's pass enqueues from its directory. -/
def bpTasksFor (cm : CacheMetadata) (bp : GroupBuildpack) (dir : List BpLayer) :
    List ScheduledTask :=
  bpTasks (cm.metadataForBuildpack bp.id).layers bp.id
    (findLayers dir (cachedFnFor bp.api (cm.metadataForBuildpack bp.id).layers))

theorem processBuildpack_fst (cm : CacheMetadata) (bp : GroupBuildpack) (dir : List BpLayer) :
    (processBuildpack cm bp dir).1 = dir.filter (keepFor cm bp) := rfl

theorem processBuildpack_snd (cm : CacheMetadata) (bp : GroupBuildpack) (dir : List BpLayer) :
    (processBuildpack cm bp dir).2 = bpTasksFor cm bp dir := rfl

theorem processGroup_dirs (cm : CacheMetadata) :
    ∀ (bps : List GroupBuildpack) (dirs : Dirs) (id : String),
      (processGroup cm bps dirs).1 id = (dirs id).filter (groupKeep cm bps id) := by
  intro bps
  induction bps with
  | nil =>
    intro dirs id
    exact (List.filter_eq_self.mpr fun a _ => rfl).symm
  | cons bp rest ih =>
    intro dirs id
    simp only [processGroup]
    rw [ih]
    by_cases hid : id = bp.id
    · subst hid
      have hupd : updateDirs dirs bp.id (processBuildpack cm bp (dirs bp.id)).1 bp.id =
          (dirs bp.id).filter (keepFor cm bp) := by
        simp [updateDirs, processBuildpack_fst]
      rw [hupd, List.filter_filter]
      apply List.filter_congr
      intro l _
      simp [groupKeep, List.all_cons, Bool.and_comm]
    · have hupd : updateDirs dirs bp.id (processBuildpack cm bp (dirs bp.id)).1 id = dirs id := by
        simp [updateDirs, hid]
      rw [hupd]
      apply List.filter_congr
      intro l _
      have hne : (bp.id == id) = false := by
        simp [Ne.symm hid]
      simp [groupKeep, List.all_cons, hne]

theorem processGroup_tasks_ext (cm : CacheMetadata) :
    ∀ (bps : List GroupBuildpack) (d d2 : Dirs),
      (∀ bp ∈ bps, d bp.id = d2 bp.id) →
      (processGroup cm bps d).2 = (processGroup cm bps d2).2 := by
  intro bps
  induction bps with
  | nil => intro d d2 _; rfl
  | cons bp rest ih =>
    intro d d2 h
    have hbp : d bp.id = d2 bp.id := h bp (List.mem_cons_self bp rest)
    simp only [processGroup, hbp]
    congr 1
    apply ih
    intro bp2 hbp2
    simp only [updateDirs]
    by_cases hx : bp2.id = bp.id
    · simp [hx]
    · simp [hx, h bp2 (List.mem_cons_of_mem bp hbp2)]

/-- The tasks of the whole sequential phase, read off the initial state; valid
when group IDs are unique, since then no earlier pass touches a later
buildpack's directory. -/
def groupTasksSpec (cm : CacheMetadata) : List GroupBuildpack → Dirs → List ScheduledTask
  | [], _ => []
  | bp :: rest, dirs => bpTasksFor cm bp (dirs bp.id) ++ groupTasksSpec cm rest dirs

theorem processGroup_tasks_nodup (cm : CacheMetadata) :
    ∀ (bps : List GroupBuildpack) (dirs : Dirs),
      (bps.map GroupBuildpack.id).Nodup →
      (processGroup cm bps dirs).2 = groupTasksSpec cm bps dirs := by
  intro bps
  induction bps with
  | nil => intro dirs _; rfl
  | cons bp rest ih =>
    intro dirs hnd
    have hnd2 : (∀ x ∈ rest, ¬x.id = bp.id) ∧ (rest.map GroupBuildpack.id).Nodup := by
      simpa using hnd
    simp only [processGroup, groupTasksSpec, processBuildpack_snd]
    congr 1
    rw [processGroup_tasks_ext cm rest
      (updateDirs dirs bp.id (processBuildpack cm bp (dirs bp.id)).1) dirs]
    · exact ih dirs hnd2.2
    · intro bp2 hbp2
      simp [updateDirs, hnd2.1 bp2 hbp2]

theorem mem_groupTasksSpec (cm : CacheMetadata) (t : ScheduledTask) :
    ∀ (bps : List GroupBuildpack) (dirs : Dirs),
      t ∈ groupTasksSpec cm bps dirs ↔ ∃ bp ∈ bps, t ∈ bpTasksFor cm bp (dirs bp.id) := by
  intro bps
  induction bps with
  | nil => intro dirs; simp [groupTasksSpec]
  | cons bp rest ih =>
    intro dirs
    simp only [groupTasksSpec, List.mem_append, ih, List.mem_cons]
    constructor
    · rintro (h | ⟨bp2, h2, h3⟩)
      · exact ⟨bp, Or.inl rfl, h⟩
      · exact ⟨bp2, Or.inr h2, h3⟩
    · rintro ⟨bp2, h2 | h2, h3⟩
      · exact Or.inl (h2 ▸ h3)
      · exact Or.inr ⟨bp2, h2, h3⟩

/-! ## Classification and decision characterizations -/

theorem layerKept_iff (cl : List (String × CachedLayerRecord)) (l : BpLayer) :
    layerKept cl l = true ↔
      ∃ rec, assocLookup cl l.name = some rec ∧ l.sha = rec.sha := by
  unfold layerKept decideLayer
  cases hx : assocLookup cl l.name with
  | none => simp
  | some rec =>
    by_cases hs : l.sha = rec.sha
    · simp [hs]
    · simp [hs]

theorem decideLayer_restore_iff (cl : List (String × CachedLayerRecord)) (l : BpLayer)
    (sha : String) :
    decideLayer cl l = LayerDecision.restore sha ↔
      ∃ rec, assocLookup cl l.name = some rec ∧ l.sha = rec.sha ∧ sha = rec.sha := by
  unfold decideLayer
  cases hx : assocLookup cl l.name with
  | none => simp
  | some rec =>
    by_cases hs : l.sha = rec.sha <;> simp [hs]
    exact eq_comm

/-! ## Extraction leaves classification untouched -/

theorem cachedFnFor_contentUpdate (bpAPI : Version) (cl : List (String × CachedLayerRecord))
    (a : Archive) (id : String) (l : BpLayer) :
    cachedFnFor bpAPI cl (contentUpdate a id l) = cachedFnFor bpAPI cl l := by
  have h := contentUpdate_shape a id l
  unfold cachedFnFor MadeCached
  split
  · simp only [h.1]
  · simp only [h.2.1]

theorem decideLayer_contentUpdate (cl : List (String × CachedLayerRecord))
    (a : Archive) (id : String) (l : BpLayer) :
    decideLayer cl (contentUpdate a id l) = decideLayer cl l := by
  have h := contentUpdate_shape a id l
  unfold decideLayer
  rw [h.1, h.2.2]

theorem layerKept_contentUpdate (cl : List (String × CachedLayerRecord))
    (a : Archive) (id : String) (l : BpLayer) :
    layerKept cl (contentUpdate a id l) = layerKept cl l := by
  unfold layerKept
  rw [decideLayer_contentUpdate]

theorem keepFor_contentUpdate (cm : CacheMetadata) (bp : GroupBuildpack)
    (a : Archive) (id : String) (l : BpLayer) :
    keepFor cm bp (contentUpdate a id l) = keepFor cm bp l := by
  unfold keepFor keepAfter
  rw [cachedFnFor_contentUpdate, layerKept_contentUpdate]

theorem groupKeep_contentUpdate (cm : CacheMetadata) (bps : List GroupBuildpack)
    (id2 : String) (a : Archive) (id : String) (l : BpLayer) :
    groupKeep cm bps id2 (contentUpdate a id l) = groupKeep cm bps id2 l := by
  unfold groupKeep
  induction bps with
  | nil => rfl
  | cons bp rest ih => simp [List.all_cons, ih, keepFor_contentUpdate]

/-! ## C1: the per-layer restore-or-delete invariant -/

/-- C1: for every on-disk layer of a group buildpack, a restore task for that
layer is scheduled iff the selected predicate classifies it as a cache
candidate, a cached-layer record with the same name exists for its buildpack,
and the hash the layer SHA store reports equals that record's hash; a cache
candidate for which that fails (record missing or hash differing) is deleted
entirely — no layer of its name remains on disk — while a verified candidate
survives. Group IDs and per-directory layer names are assumed unique, as
they are on a filesystem. -/
theorem restore_layer_reconciliation (r : Restorer) (cache : Option Cache)
    (mdRestorer : Except String Unit) (copy : Copier) (st : RestoreState)
    (bp : GroupBuildpack) (l : BpLayer)
    (hmd : mdRestorer = Except.ok ())
    (hbp : bp ∈ r.buildpacks)
    (hl : l ∈ st.dirs bp.id)
    (hids : (r.buildpacks.map GroupBuildpack.id).Nodup)
    (hnames : ((st.dirs bp.id).map BpLayer.name).Nodup) :
    ((∃ t ∈ (r.restore cache mdRestorer copy st).tasks,
        t.bpID = bp.id ∧ t.layerName = l.name) ↔
      (cachedFnFor bp.api
          ((retrieveCacheMetadata cache).metadataForBuildpack bp.id).layers l = true
        ∧ ∃ rec, assocLookup
            ((retrieveCacheMetadata cache).metadataForBuildpack bp.id).layers l.name =
            some rec ∧ l.sha = rec.sha))
    ∧ ((cachedFnFor bp.api
          ((retrieveCacheMetadata cache).metadataForBuildpack bp.id).layers l = true
        ∧ ¬ ∃ rec, assocLookup
            ((retrieveCacheMetadata cache).metadataForBuildpack bp.id).layers l.name =
            some rec ∧ l.sha = rec.sha) →
        ∀ l2 ∈ (r.restore cache mdRestorer copy st).state.dirs bp.id, l2.name ≠ l.name)
    ∧ ((cachedFnFor bp.api
          ((retrieveCacheMetadata cache).metadataForBuildpack bp.id).layers l = true
        ∧ ∃ rec, assocLookup
            ((retrieveCacheMetadata cache).metadataForBuildpack bp.id).layers l.name =
            some rec ∧ l.sha = rec.sha) →
        ∃ l2 ∈ (r.restore cache mdRestorer copy st).state.dirs bp.id, l2.name = l.name) := by
  have htask := restore_tasks_eq r cache mdRestorer copy st (by rw [hmd]; exact ite_self _)
  have hdirs := restore_dirs_eq r cache mdRestorer copy st (by rw [hmd]; exact ite_self _)
  have hdirs2 : ∀ id2 : String, (r.restore cache mdRestorer copy st).state.dirs id2 =
      ((st.dirs id2).filter (groupKeep (retrieveCacheMetadata cache) r.buildpacks id2)).map
        (contentUpdate (concatArchives (taskArchives cache
          (processGroup (retrieveCacheMetadata cache) r.buildpacks st.dirs).2)) id2) := by
    intro id2
    rw [hdirs]
    unfold applyAllTasks
    rw [processGroup_dirs]
  refine ⟨?_, ?_, ?_⟩
  · rw [htask, processGroup_tasks_nodup (retrieveCacheMetadata cache) r.buildpacks st.dirs hids]
    constructor
    · rintro ⟨t, ht, htb, htn⟩
      rw [mem_groupTasksSpec] at ht
      obtain ⟨bp2, hbp2, htask2⟩ := ht
      unfold bpTasksFor bpTasks findLayers at htask2
      rw [List.mem_filterMap] at htask2
      obtain ⟨l2, hl2, hsome⟩ := htask2
      cases hd : decideLayer ((retrieveCacheMetadata cache).metadataForBuildpack bp2.id).layers l2 with
      | remove => rw [hd] at hsome; cases hsome
      | restore sha =>
        rw [hd] at hsome
        have ht2 : t = ⟨bp2.id, l2.name, sha⟩ := (Option.some.inj hsome).symm
        have hid2 : bp2.id = bp.id := by rw [ht2] at htb; exact htb
        have hbp2eq : bp2 = bp := List.inj_on_of_nodup_map hids hbp2 hbp hid2
        subst hbp2eq
        have hl2m := List.mem_filter.mp hl2
        have hname : l2.name = l.name := by rw [ht2] at htn; exact htn
        have hl2eq : l2 = l := List.inj_on_of_nodup_map hnames hl2m.1 hl hname
        subst hl2eq
        obtain ⟨rec, h1, h2, -⟩ := (decideLayer_restore_iff _ l2 sha).mp hd
        exact ⟨hl2m.2, rec, h1, h2⟩
    · rintro ⟨hfnl, rec, hrec, hsha⟩
      refine ⟨⟨bp.id, l.name, rec.sha⟩, ?_, rfl, rfl⟩
      rw [mem_groupTasksSpec]
      refine ⟨bp, hbp, ?_⟩
      unfold bpTasksFor bpTasks findLayers
      rw [List.mem_filterMap]
      refine ⟨l, List.mem_filter.mpr ⟨hl, hfnl⟩, ?_⟩
      rw [(decideLayer_restore_iff _ l rec.sha).mpr ⟨rec, hrec, hsha, rfl⟩]
  · rintro ⟨hfnl, hbad⟩ l2 hl2 hname2
    rw [hdirs2 bp.id] at hl2
    obtain ⟨l0, hl0, hl0eq⟩ := List.mem_map.mp hl2
    have hl0m := List.mem_filter.mp hl0
    have hl0name : l0.name = l.name := by
      rw [← hl0eq] at hname2
      rw [← (contentUpdate_shape _ bp.id l0).1]
      exact hname2
    have hl0eq2 : l0 = l := List.inj_on_of_nodup_map hnames hl0m.1 hl hl0name
    subst hl0eq2
    have hkeep := hl0m.2
    rw [groupKeep, List.all_eq_true] at hkeep
    have hbpkeep := hkeep bp hbp
    have hkept : layerKept ((retrieveCacheMetadata cache).metadataForBuildpack bp.id).layers l0 = false := by
      cases hk : layerKept ((retrieveCacheMetadata cache).metadataForBuildpack bp.id).layers l0 with
      | true => exact absurd ((layerKept_iff _ l0).mp hk) hbad
      | false => rfl
    rw [keepFor, keepAfter, hfnl, hkept] at hbpkeep
    simp at hbpkeep
  · rintro ⟨hfnl, rec, hrec, hsha⟩
    refine ⟨contentUpdate (concatArchives (taskArchives cache
      (processGroup (retrieveCacheMetadata cache) r.buildpacks st.dirs).2)) bp.id l, ?_,
      (contentUpdate_shape _ bp.id l).1⟩
    rw [hdirs2 bp.id]
    apply List.mem_map_of_mem
    apply List.mem_filter.mpr
    refine ⟨hl, ?_⟩
    rw [groupKeep, List.all_eq_true]
    intro bp2 hbp2
    by_cases hid2 : bp2.id = bp.id
    · have hkept : layerKept ((retrieveCacheMetadata cache).metadataForBuildpack bp2.id).layers l = true := by
        rw [hid2]
        exact (layerKept_iff _ l).mpr ⟨rec, hrec, hsha⟩
      simp [keepFor, keepAfter, hkept]
    · simp [hid2]

/-- C1 witness: with a cached record matching layer L2's hash, a restore task
for bp1/L2 is scheduled and a layer named L2 survives on disk. -/
theorem restore_layer_reconciliation_app :
    (∃ t ∈ (Restorer.restore ⟨"/layers", [⟨"bp1", ⟨0, 6⟩⟩], ⟨0, 6⟩⟩ (some witnessCache)
        (Except.ok ()) (fun _ _ => Except.ok ()) ⟨witnessDirs, ⟨[], [], []⟩⟩).tasks,
      t.bpID = "bp1" ∧ t.layerName = "L2")
    ∧ (∃ l2 ∈ (Restorer.restore ⟨"/layers", [⟨"bp1", ⟨0, 6⟩⟩], ⟨0, 6⟩⟩ (some witnessCache)
        (Except.ok ()) (fun _ _ => Except.ok ()) ⟨witnessDirs, ⟨[], [], []⟩⟩).state.dirs "bp1",
      l2.name = "L2") := by
  have h := restore_layer_reconciliation ⟨"/layers", [⟨"bp1", ⟨0, 6⟩⟩], ⟨0, 6⟩⟩
    (some witnessCache) (Except.ok ()) (fun _ _ => Except.ok ())
    ⟨witnessDirs, ⟨[], [], []⟩⟩ ⟨"bp1", ⟨0, 6⟩⟩ ⟨"L2", false, "hg", "old2"⟩
    rfl (by decide) (by decide) (by decide) (by decide)
  exact ⟨h.1.mpr ⟨by decide, ⟨⟨"hg", true, false, false⟩, by decide, by decide⟩⟩,
    h.2.2 ⟨by decide, ⟨⟨"hg", true, false, false⟩, by decide, by decide⟩⟩⟩

/-! ## C9 support: a second pass neither removes nor re-extracts differently -/

theorem restoreState_ext (x y : RestoreState) (h1 : x.dirs = y.dirs)
    (h2 : x.sbom = y.sbom) : x = y := by
  cases x; cases y
  cases h1; cases h2
  rfl

theorem restoreSBOM_emptied (r : Restorer) (copy : Copier) (s : SbomState) :
    ∃ d, (r.restoreSBOM copy s).1 = SbomState.mk [] [] d := by
  cases hw : (walkSBOM r "cache" copy s.stagedCache s.dests).2 with
  | error e =>
    exact ⟨(walkSBOM r "cache" copy s.stagedCache s.dests).1,
      by simp only [Restorer.restoreSBOM, hw]⟩
  | ok a =>
    exact ⟨(walkSBOM r "launch" copy s.stagedLaunch
        (walkSBOM r "cache" copy s.stagedCache s.dests).1).1,
      by simp only [Restorer.restoreSBOM, hw]⟩

theorem restoreSBOM_empty_input (r : Restorer) (copy : Copier) (d : List (String × String)) :
    r.restoreSBOM copy (SbomState.mk [] [] d) = (SbomState.mk [] [] d, Except.ok ()) := rfl

/-- With a successful metadata phase and no task failure, Restore's final SBOM
state and result are the relocator's when the platform is at least 0.8, and
the untouched state with a nil error otherwise. -/
theorem restore_sbomres_eq (r : Restorer) (cache : Option Cache)
    (mdRestorer : Except String Unit) (copy : Copier) (st : RestoreState)
    (hmd : (if r.restoresLayerMetadata then mdRestorer else Except.ok ()) = Except.ok ())
    (hrt : (runTasks cache (processGroup (retrieveCacheMetadata cache) r.buildpacks st.dirs).2
      (processGroup (retrieveCacheMetadata cache) r.buildpacks st.dirs).1).2 = none) :
    (r.restore cache mdRestorer copy st).state.sbom =
      (if r.platformAPI.atLeast ⟨0, 8⟩ then (r.restoreSBOM copy st.sbom).1 else st.sbom)
    ∧ (r.restore cache mdRestorer copy st).result =
      (if r.platformAPI.atLeast ⟨0, 8⟩ then (r.restoreSBOM copy st.sbom).2 else Except.ok ()) := by
  simp only [Restorer.restore, hmd, hrt]
  by_cases hp : r.platformAPI.atLeast ⟨0, 8⟩ = true
  · simp [hp]
  · simp [hp]

theorem groupKeep_of_mem_extracted (cm : CacheMetadata) (bps : List GroupBuildpack)
    (id : String) (a : Archive) (d : List BpLayer) (x : BpLayer)
    (hx : x ∈ (d.filter (groupKeep cm bps id)).map (contentUpdate a id)) :
    groupKeep cm bps id x = true := by
  obtain ⟨y, hy, hxy⟩ := List.mem_map.mp hx
  rw [← hxy, groupKeep_contentUpdate]
  exact (List.mem_filter.mp hy).2

theorem groupTasksSpec_ext (cm : CacheMetadata) :
    ∀ (bps : List GroupBuildpack) (d d2 : Dirs),
      (∀ bp ∈ bps, bpTasksFor cm bp (d bp.id) = bpTasksFor cm bp (d2 bp.id)) →
      groupTasksSpec cm bps d = groupTasksSpec cm bps d2 := by
  intro bps
  induction bps with
  | nil => intro d d2 _; rfl
  | cons bp rest ih =>
    intro d d2 h
    simp only [groupTasksSpec]
    rw [h bp (List.mem_cons_self bp rest),
      ih d d2 fun bp2 h2 => h bp2 (List.mem_cons_of_mem bp h2)]

theorem filterMap_filter_absorb {α β : Type} (p q : α → Bool) (f : α → Option β)
    (h : ∀ x, p x = true → q x = false → f x = none) :
    ∀ l : List α, (l.filter fun a => p a && q a).filterMap f = (l.filter p).filterMap f := by
  intro l
  induction l with
  | nil => rfl
  | cons x xs ih =>
    cases hp : p x with
    | false => simp [List.filter_cons, hp, ih]
    | true =>
      cases hq : q x with
      | true => simp [List.filter_cons, hp, hq, List.filterMap_cons, ih]
      | false => simp [List.filter_cons, hp, hq, List.filterMap_cons, h x hp hq, ih]

theorem bpTaskFun_contentUpdate (cl : List (String × CachedLayerRecord)) (bpid : String)
    (a : Archive) (id : String) (x : BpLayer) :
    (match decideLayer cl (contentUpdate a id x) with
     | LayerDecision.remove => none
     | LayerDecision.restore sha =>
       some (⟨bpid, (contentUpdate a id x).name, sha⟩ : ScheduledTask)) =
    (match decideLayer cl x with
     | LayerDecision.remove => none
     | LayerDecision.restore sha => some ⟨bpid, x.name, sha⟩) := by
  rw [decideLayer_contentUpdate, (contentUpdate_shape a id x).1]

/-- Re-scanning a buildpack's directory after the sequential pass and the
extraction phase schedules exactly the tasks of the first scan: extraction
changes no name, flag or hash, and the layers the pass removed could not have
scheduled a task. -/
theorem bpTasksFor_after_extraction (cm : CacheMetadata) (bps : List GroupBuildpack)
    (bp : GroupBuildpack) (_hbp : bp ∈ bps) (a : Archive) (d : List BpLayer) :
    bpTasksFor cm bp ((d.filter (groupKeep cm bps bp.id)).map (contentUpdate a bp.id)) =
      bpTasksFor cm bp d := by
  have habs : ∀ x : BpLayer,
      cachedFnFor bp.api (cm.metadataForBuildpack bp.id).layers x = true →
      groupKeep cm bps bp.id x = false →
      (match decideLayer (cm.metadataForBuildpack bp.id).layers x with
       | LayerDecision.remove => none
       | LayerDecision.restore sha => some (⟨bp.id, x.name, sha⟩ : ScheduledTask)) = none := by
    intro x _ hgk
    cases hd : decideLayer (cm.metadataForBuildpack bp.id).layers x with
    | remove => simp [hd]
    | restore sha =>
      exfalso
      have hkept : layerKept (cm.metadataForBuildpack bp.id).layers x = true := by
        unfold layerKept; rw [hd]
      rw [groupKeep] at hgk
      obtain ⟨bp2, hbp2, hf⟩ := List.all_eq_false.mp hgk
      have hparts : (bp2.id == bp.id) = true ∧ keepFor cm bp2 x = false := by
        cases hb : (bp2.id == bp.id) <;> cases hk : keepFor cm bp2 x <;>
          simp [hb, hk] at hf ⊢
      have hid : bp2.id = bp.id := by simpa using hparts.1
      have hkf := hparts.2
      simp only [keepFor, keepAfter, hid, hkept] at hkf
      simp at hkf
  unfold bpTasksFor bpTasks findLayers
  rw [List.filter_map, List.filterMap_map]
  rw [List.filter_congr fun x _ => by
    simp only [Function.comp_apply]
    exact cachedFnFor_contentUpdate bp.api (cm.metadataForBuildpack bp.id).layers a bp.id x]
  rw [List.filterMap_congr fun x _ => by
    simp only [Function.comp_apply]
    exact bpTaskFun_contentUpdate (cm.metadataForBuildpack bp.id).layers bp.id a bp.id x]
  rw [List.filter_filter]
  exact filterMap_filter_absorb _ _ _ habs d

/-! ## C9: Restore is idempotent -/

/-- C9: with unique buildpack IDs in the group, running Restore twice in
succession — same cache, same collaborators, the second run starting from the
first run's final on-disk state — produces exactly the first run's final
state and succeeds, provided the first run succeeded. -/
theorem restore_idempotent (r : Restorer) (cache : Option Cache)
    (mdRestorer : Except String Unit) (copy : Copier) (st : RestoreState)
    (hids : (r.buildpacks.map GroupBuildpack.id).Nodup)
    (hok : (r.restore cache mdRestorer copy st).result = Except.ok ()) :
    (r.restore cache mdRestorer copy ((r.restore cache mdRestorer copy st).state)).state =
      (r.restore cache mdRestorer copy st).state
    ∧ (r.restore cache mdRestorer copy ((r.restore cache mdRestorer copy st).state)).result =
      Except.ok () := by
  cases hm : (if r.restoresLayerMetadata then mdRestorer else Except.ok ()) with
  | error e =>
    exfalso
    have hres : (r.restore cache mdRestorer copy st).result = Except.error e := by
      simp only [Restorer.restore, hm]
    rw [hres] at hok
    exact Except.noConfusion hok
  | ok u =>
  cases u
  cases hrt : (runTasks cache (processGroup (retrieveCacheMetadata cache) r.buildpacks st.dirs).2
      (processGroup (retrieveCacheMetadata cache) r.buildpacks st.dirs).1).2 with
  | some e =>
    exfalso
    have hres : (r.restore cache mdRestorer copy st).result =
        Except.error ( "restoring data: " ++ e) := by
      simp only [Restorer.restore, hm, hrt]
    rw [hres] at hok
    exact Except.noConfusion hok
  | none =>
  have hfte : firstTaskError cache
      (processGroup (retrieveCacheMetadata cache) r.buildpacks st.dirs).2 = none := by
    rw [← runTasks_err cache
      (processGroup (retrieveCacheMetadata cache) r.buildpacks st.dirs).2
      (processGroup (retrieveCacheMetadata cache) r.buildpacks st.dirs).1]
    exact hrt
  have e1dirs := restore_dirs_eq r cache mdRestorer copy st hm
  have hD1 : ∀ id : String, (r.restore cache mdRestorer copy st).state.dirs id =
      ((st.dirs id).filter (groupKeep (retrieveCacheMetadata cache) r.buildpacks id)).map
        (contentUpdate (concatArchives (taskArchives cache
          (processGroup (retrieveCacheMetadata cache) r.buildpacks st.dirs).2)) id) := by
    intro id
    rw [e1dirs]
    unfold applyAllTasks
    rw [processGroup_dirs]
  have hpg2dirs : ∀ id : String, (processGroup (retrieveCacheMetadata cache) r.buildpacks
      (r.restore cache mdRestorer copy st).state.dirs).1 id =
      (r.restore cache mdRestorer copy st).state.dirs id := by
    intro id
    rw [processGroup_dirs, hD1 id]
    apply List.filter_eq_self.mpr
    intro x hx
    exact groupKeep_of_mem_extracted (retrieveCacheMetadata cache) r.buildpacks id _ _ x hx
  have hpg2tasks : (processGroup (retrieveCacheMetadata cache) r.buildpacks
      (r.restore cache mdRestorer copy st).state.dirs).2 =
      (processGroup (retrieveCacheMetadata cache) r.buildpacks st.dirs).2 := by
    rw [processGroup_tasks_nodup (retrieveCacheMetadata cache) r.buildpacks
        (r.restore cache mdRestorer copy st).state.dirs hids,
      processGroup_tasks_nodup (retrieveCacheMetadata cache) r.buildpacks st.dirs hids]
    apply groupTasksSpec_ext
    intro bp hbp
    rw [hD1 bp.id]
    exact bpTasksFor_after_extraction (retrieveCacheMetadata cache) r.buildpacks bp hbp _ _
  have hrt2 : (runTasks cache (processGroup (retrieveCacheMetadata cache) r.buildpacks
      (r.restore cache mdRestorer copy st).state.dirs).2
      (processGroup (retrieveCacheMetadata cache) r.buildpacks
        (r.restore cache mdRestorer copy st).state.dirs).1).2 = none := by
    rw [runTasks_err, hpg2tasks]
    exact hfte
  have hdirs22 : (r.restore cache mdRestorer copy
      ((r.restore cache mdRestorer copy st).state)).state.dirs =
      (r.restore cache mdRestorer copy st).state.dirs := by
    rw [restore_dirs_eq r cache mdRestorer copy
      ((r.restore cache mdRestorer copy st).state) hm]
    funext id
    unfold applyAllTasks
    rw [hpg2tasks, hpg2dirs id, hD1 id, List.map_map]
    apply List.map_congr_left
    intro x _
    exact contentUpdate_idem _ id x
  have h1sb := restore_sbomres_eq r cache mdRestorer copy st hm hrt
  have h2sb := restore_sbomres_eq r cache mdRestorer copy
    ((r.restore cache mdRestorer copy st).state) hm hrt2
  by_cases hp : r.platformAPI.atLeast ⟨0, 8⟩ = true
  · have hsb1 : (r.restore cache mdRestorer copy st).state.sbom =
        (r.restoreSBOM copy st.sbom).1 := by
      rw [h1sb.1, if_pos hp]
    obtain ⟨d, hd⟩ := restoreSBOM_emptied r copy st.sbom
    have hrun2sb : r.restoreSBOM copy
        ((r.restore cache mdRestorer copy st).state.sbom) =
        (SbomState.mk [] [] d, Except.ok ()) := by
      rw [hsb1, hd]
      exact restoreSBOM_empty_input r copy d
    constructor
    · apply restoreState_ext
      · exact hdirs22
      · rw [h2sb.1, if_pos hp, hrun2sb, hsb1, hd]
    · rw [h2sb.2, if_pos hp, hrun2sb]
  · have hsb1 : (r.restore cache mdRestorer copy st).state.sbom = st.sbom := by
      rw [h1sb.1, if_neg hp]
    constructor
    · apply restoreState_ext
      · exact hdirs22
      · rw [h2sb.1, if_neg hp]
    · rw [h2sb.2, if_neg hp]

/-- A cache for the C9 witness: one verified layer whose archive refreshes
bp1/L1. -/
def idemCache : Cache :=
  ⟨⟨[("bp1", ⟨[("L1", ⟨"h1", true, false, false⟩)]⟩)]⟩,
   fun sha => if sha = "h1" then Except.ok [⟨"bp1", "L1", "new"⟩] else Except.error "unknown"⟩

/-- The on-disk state for the C9 witness. -/
def idemDirs : Dirs :=
  fun id => if id = "bp1" then [⟨"L1", false, "h1", "old"⟩] else []

/-- C9 witness: on a concrete successful run (platform 0.8, one verified
layer, empty SBOM staging) a second Restore reproduces the first run's final
state and succeeds. -/
theorem restore_idempotent_app :
    (Restorer.restore ⟨"/layers", [⟨"bp1", ⟨0, 6⟩⟩], ⟨0, 8⟩⟩ (some idemCache) (Except.ok ())
        (fun _ _ => Except.ok ())
        ((Restorer.restore ⟨"/layers", [⟨"bp1", ⟨0, 6⟩⟩], ⟨0, 8⟩⟩ (some idemCache)
          (Except.ok ()) (fun _ _ => Except.ok ()) ⟨idemDirs, ⟨[], [], []⟩⟩).state)).state =
      (Restorer.restore ⟨"/layers", [⟨"bp1", ⟨0, 6⟩⟩], ⟨0, 8⟩⟩ (some idemCache)
        (Except.ok ()) (fun _ _ => Except.ok ()) ⟨idemDirs, ⟨[], [], []⟩⟩).state
    ∧ (Restorer.restore ⟨"/layers", [⟨"bp1", ⟨0, 6⟩⟩], ⟨0, 8⟩⟩ (some idemCache) (Except.ok ())
        (fun _ _ => Except.ok ())
        ((Restorer.restore ⟨"/layers", [⟨"bp1", ⟨0, 6⟩⟩], ⟨0, 8⟩⟩ (some idemCache)
          (Except.ok ()) (fun _ _ => Except.ok ()) ⟨idemDirs, ⟨[], [], []⟩⟩).state)).result =
      Except.ok () :=
  restore_idempotent ⟨"/layers", [⟨"bp1", ⟨0, 6⟩⟩], ⟨0, 8⟩⟩ (some idemCache) (Except.ok ())
    (fun _ _ => Except.ok ()) ⟨idemDirs, ⟨[], [], []⟩⟩ (by decide) (by decide)

end Lifecycle
